import Mathlib

/-!
Shallow embedding of `whale.go` (abroudoux/whale): a terminal tool that parses
the container runtime's tabular listing output, lets the operator pick a
container and then an action through two bubbletea list models, and dispatches
the chosen action.

Conventions of the embedding:
* Go slices of strings become `List String`; the Go `int` becomes `ℤ`
  (values stay far from the 64-bit bounds, so overflow never occurs).
* A Go runtime panic (out-of-range index or slice) is represented by `none`:
  a function that can panic returns an `Option`, and `none` means the whole
  call crashed, producing no value at all.
* A Go `error` value is `Option String` (`none` = `nil`).
* External collaborators (the `pbcopy` subprocess) are passed in as an
  explicit outcome parameter.
-/

/-- Go slice indexing `xs[i]` with an `int` index: panics (`none`) when the
index is negative or not below the length. -/
def goIndex {α : Type} (xs : List α) (i : Int) : Option α :=
  if 0 ≤ i then xs.get? i.toNat else none

/-- Go slicing `xs[lo:hi]` on a slice whose capacity equals its length
(as produced by `strings.Fields`): panics (`none`) unless
`lo ≤ hi ≤ len(xs)`. -/
def goSlice {α : Type} (xs : List α) (lo hi : Nat) : Option (List α) :=
  if lo ≤ hi ∧ hi ≤ xs.length then some ((xs.drop lo).take (hi - lo)) else none

/-- Accumulator for `goFields`: splits a rune sequence around runs of
whitespace, as Go's `strings.Fields` does. -/
def goFieldsAux : List Char → List Char → List String
  | [], acc => if acc.isEmpty then [] else [String.mk acc.reverse]
  | c :: cs, acc =>
    if c.isWhitespace then
      if acc.isEmpty then goFieldsAux cs []
      else String.mk acc.reverse :: goFieldsAux cs []
    else goFieldsAux cs (c :: acc)

/-- Embedding of Go's `strings.Fields`: splits the string around each run of
one or more whitespace characters; the result contains no empty token. -/
def goFields (s : String) : List String :=
  goFieldsAux s.toList []

/-- The `Container` record of `whale.go`. -/
structure Container where
  ID : String
  Image : String
  Command : String
  Created : String
  Status : String
  Ports : String
  Name : String
deriving DecidableEq, Repr

/-- Embedding of `convertStringToContainer`. The Go function performs
unchecked accesses `fields[0]`, `fields[1]`, `fields[2]`, the slice
`fields[3:6]`, and `fields[len(fields)-1]`; each is embedded as a fallible
step, so `none` means the Go code panics on this line. `fields[6:10]` is
guarded by `len(fields) > 10` in the source and therefore always in range. -/
def convertStringToContainer (str : String) : Option Container := do
  let fields := goFields str
  let id ← goIndex fields 0
  let image ← goIndex fields 1
  let command ← goIndex fields 2
  let createdFields ← goSlice fields 3 6
  let created := String.intercalate " " createdFields
  let status ← if fields.length > 10 then
      (goSlice fields 6 10).map (String.intercalate " ")
    else pure ""
  let ports := ""
  let name ← goIndex fields ((fields.length : Int) - 1)
  pure { ID := id, Image := image, Command := command, Created := created,
         Status := status, Ports := ports, Name := name }

/-- Discrete input events. `tea.KeyMsg` carries the key's string form
(`msg.String()` in the source); every other message kind is `other`. -/
inductive Msg where
  | key (s : String)
  | other
deriving DecidableEq, Repr

/-- The only `tea.Cmd` the models ever emit is `tea.Quit`; `nil` commands are
`Option.none` at the use sites. -/
inductive Cmd where
  | quit
deriving DecidableEq, Repr

/-- The container-selection model of `whale.go`. -/
structure containerChoice where
  containers : List String
  cursor : Int
  selectedContainer : String
deriving DecidableEq, Repr

/-- Embedding of `initialContainerModel`. -/
def initialContainerModel (containers : List String) : containerChoice :=
  { containers := containers
    cursor := (containers.length : Int) - 1
    selectedContainer := "" }

/-- Embedding of `containerChoice.Update`. Returns `none` when the Go method
panics (the `enter` case indexes `menu.containers[menu.cursor]` unchecked). -/
def containerChoice.Update (menu : containerChoice) (msg : Msg) :
    Option (containerChoice × Option Cmd) :=
  match msg with
  | .key s =>
    if s = "q" ∨ s = "esc" ∨ s = "ctrl+c" then
      some (menu, some .quit)
    else if s = "up" then
      let c := menu.cursor - 1
      let c := if c < 0 then (menu.containers.length : Int) - 1 else c
      some ({ menu with cursor := c }, none)
    else if s = "down" then
      let c := menu.cursor + 1
      let c := if c ≥ (menu.containers.length : Int) then 0 else c
      some ({ menu with cursor := c }, none)
    else if s = "enter" then
      match goIndex menu.containers menu.cursor with
      | some v => some ({ menu with selectedContainer := v }, some .quit)
      | none => none
    else
      some (menu, none)
  | .other => some (menu, none)

/-- The action-selection model of `whale.go`. -/
structure actionChoice where
  actions : List String
  cursor : Int
  selectedAction : String
  selectedContainer : Container
deriving DecidableEq, Repr

/-- Embedding of `initialActionModel`. -/
def initialActionModel (container : Container) : actionChoice :=
  let actions := ["Exit", "Copy container ID"]
  { actions := actions
    cursor := (actions.length : Int) - 1
    selectedAction := ""
    selectedContainer := container }

/-- Embedding of `actionChoice.Update`; structurally identical to
`containerChoice.Update`. -/
def actionChoice.Update (menu : actionChoice) (msg : Msg) :
    Option (actionChoice × Option Cmd) :=
  match msg with
  | .key s =>
    if s = "q" ∨ s = "esc" ∨ s = "ctrl+c" then
      some (menu, some .quit)
    else if s = "up" then
      let c := menu.cursor - 1
      let c := if c < 0 then (menu.actions.length : Int) - 1 else c
      some ({ menu with cursor := c }, none)
    else if s = "down" then
      let c := menu.cursor + 1
      let c := if c ≥ (menu.actions.length : Int) then 0 else c
      some ({ menu with cursor := c }, none)
    else if s = "enter" then
      match goIndex menu.actions menu.cursor with
      | some v => some ({ menu with selectedAction := v }, some .quit)
      | none => none
    else
      some (menu, none)
  | .other => some (menu, none)

/-- Outcome of driving a bubbletea model over a finite event stream:
`finished` when a `tea.Quit` command ends the session, `blocked` when the
stream is exhausted without quitting (the real program would block awaiting
more input), `crashed` when an update panics. -/
inductive RunResult (α : Type) where
  | finished (m : α)
  | blocked (m : α)
  | crashed
deriving DecidableEq, Repr

/-- The bubbletea event loop specialized to `containerChoice`: events are
processed strictly in order, each to completion, until a `quit` command. -/
def runContainer : containerChoice → List Msg → RunResult containerChoice
  | menu, [] => .blocked menu
  | menu, e :: es =>
    match menu.Update e with
    | none => .crashed
    | some (m, some .quit) => .finished m
    | some (m, none) => runContainer m es

/-- The bubbletea event loop specialized to `actionChoice`. -/
def runAction : actionChoice → List Msg → RunResult actionChoice
  | menu, [] => .blocked menu
  | menu, e :: es =>
    match menu.Update e with
    | none => .crashed
    | some (m, some .quit) => .finished m
    | some (m, none) => runAction m es

/-- A Go `(string, error)` pair as returned by `chooseContainer` and
`chooseAction`; `errMsg = none` is the `nil` error. -/
structure GoResult where
  value : String
  errMsg : Option String
deriving DecidableEq, Repr

/-- Embedding of `chooseContainer` run against a finite event stream: when
the program finishes it returns the final model's `selectedContainer` and a
`nil` error; `none` stands for a session that crashed or never ended. -/
def chooseContainer (containers : List String) (events : List Msg) :
    Option GoResult :=
  match runContainer (initialContainerModel containers) events with
  | .finished m => some { value := m.selectedContainer, errMsg := none }
  | .blocked _ => none
  | .crashed => none

/-- Embedding of `chooseAction` run against a finite event stream. -/
def chooseAction (container : Container) (events : List Msg) :
    Option GoResult :=
  match runAction (initialActionModel container) events with
  | .finished m => some { value := m.selectedAction, errMsg := none }
  | .blocked _ => none
  | .crashed => none

/-- Outcome of an external subprocess invocation (the `pbcopy` run in
`copyContainerId`): success, or failure with the underlying error text. -/
inductive ExecOutcome where
  | success
  | failure (msg : String)
deriving DecidableEq, Repr

/-- Embedding of `copyContainerId`: wraps a failed `pbcopy` run in the
`error copying container ID` error and returns it; returns `nil` on
success. -/
def copyContainerId (pbcopy : ExecOutcome) (container : String) :
    Option String :=
  match pbcopy with
  | .failure m => some ("error copying container ID: " ++ m)
  | .success => none

/-- How a call to `doAction` ends: a normal return carrying the Go error
value, or a direct process termination via `os.Exit`. -/
inductive DoActionResult where
  | ret (err : Option String)
  | exit (code : Nat)
deriving DecidableEq, Repr

/-- Embedding of `doAction`. On the `Exit` label the process exits with
code 0; on `Copy container ID` a clipboard failure is printed and the
process exits with code 1, while success returns `nil`; any other label
falls through and returns `nil`. -/
def doAction (pbcopy : ExecOutcome) (action : String)
    (container : Container) : DoActionResult :=
  if action = "Exit" then .exit 0
  else if action = "Copy container ID" then
    match copyContainerId pbcopy container.ID with
    | some _ => .exit 1
    | none => .ret none
  else .ret none

/-- An event that ends a selection session: a cancel key or the commit key.
Any other event leaves the session running. -/
def endsSession : Msg → Bool
  | .key s => s = "q" || s = "esc" || s = "ctrl+c" || s = "enter"
  | .other => false

/-- Iterate one fixed event through `containerChoice.Update`, crashing
(`none`) if any step panics; quit commands are irrelevant for the move
events this is used with. -/
def iterContainerUpdate (m : containerChoice) (msg : Msg) :
    Nat → Option containerChoice
  | 0 => some m
  | n + 1 =>
    match m.Update msg with
    | some (m', _) => iterContainerUpdate m' msg n
    | none => none

/-- Iterate one fixed event through `actionChoice.Update`, crashing (`none`)
if any step panics. -/
def iterActionUpdate (m : actionChoice) (msg : Msg) :
    Nat → Option actionChoice
  | 0 => some m
  | n + 1 =>
    match m.Update msg with
    | some (m', _) => iterActionUpdate m' msg n
    | none => none

/-! ### Helper lemmas -/

theorem goIndex_eq_some {α : Type} (xs : List α) (i : Int) (d : α)
    (h0 : 0 ≤ i) (h1 : i.toNat < xs.length) :
    goIndex xs i = some (xs.getD i.toNat d) := by
  unfold goIndex
  rw [if_pos h0, List.get?_eq_getElem?, List.getElem?_eq_getElem h1,
    List.getD_eq_getElem?_getD, List.getElem?_eq_getElem h1, Option.getD_some]

theorem emod_sub_emod_left (a b n : ℤ) : (a % n - b) % n = (a - b) % n := by
  rw [Int.sub_emod (a % n) b n, Int.emod_emod_of_dvd a dvd_rfl, ← Int.sub_emod]

theorem add_len_emod (c : ℤ) (L : ℤ) : (c + L) % L = c % L := by
  have h := Int.add_mul_emod_self_left c L 1
  rw [mul_one] at h
  exact h

theorem sub_len_emod (c : ℤ) (L : ℤ) : (c - L) % L = c % L := by
  have h := Int.add_mul_emod_self_left c L (-1)
  rw [show c + L * (-1) = c - L by ring] at h
  exact h

/-- Single-step reduction of `containerChoice.Update` on the `up` key. -/
theorem containerUpdate_up (m : containerChoice) :
    m.Update (.key "up") =
      some ({ m with cursor :=
        if m.cursor - 1 < 0 then (m.containers.length : Int) - 1
        else m.cursor - 1 }, none) := rfl

/-- Single-step reduction of `containerChoice.Update` on the `down` key. -/
theorem containerUpdate_down (m : containerChoice) :
    m.Update (.key "down") =
      some ({ m with cursor :=
        if m.cursor + 1 ≥ (m.containers.length : Int) then 0
        else m.cursor + 1 }, none) := rfl

/-- Single-step reduction of `containerChoice.Update` on the `enter` key. -/
theorem containerUpdate_enter (m : containerChoice) :
    m.Update (.key "enter") =
      match goIndex m.containers m.cursor with
      | some v => some ({ m with selectedContainer := v }, some .quit)
      | none => none := rfl

/-- A cancel key quits and returns the model unchanged. -/
theorem containerUpdate_cancel (m : containerChoice) (s : String)
    (h : s = "q" ∨ s = "esc" ∨ s = "ctrl+c") :
    m.Update (.key s) = some (m, some .quit) := by
  rcases h with h | h | h <;> subst h <;> rfl

/-- A key outside the recognized set leaves the model unchanged. -/
theorem containerUpdate_ignored (m : containerChoice) (s : String)
    (hq : s ≠ "q") (he : s ≠ "esc") (hc : s ≠ "ctrl+c")
    (hu : s ≠ "up") (hd : s ≠ "down") (hent : s ≠ "enter") :
    m.Update (.key s) = some (m, none) := by
  simp only [containerChoice.Update]
  rw [if_neg (by tauto), if_neg hu, if_neg hd, if_neg hent]

/-- Single-step reduction of `actionChoice.Update` on the `up` key. -/
theorem actionUpdate_up (m : actionChoice) :
    m.Update (.key "up") =
      some ({ m with cursor :=
        if m.cursor - 1 < 0 then (m.actions.length : Int) - 1
        else m.cursor - 1 }, none) := rfl

/-- Single-step reduction of `actionChoice.Update` on the `down` key. -/
theorem actionUpdate_down (m : actionChoice) :
    m.Update (.key "down") =
      some ({ m with cursor :=
        if m.cursor + 1 ≥ (m.actions.length : Int) then 0
        else m.cursor + 1 }, none) := rfl

/-- A cancel key quits and returns the action model unchanged. -/
theorem actionUpdate_cancel (m : actionChoice) (s : String)
    (h : s = "q" ∨ s = "esc" ∨ s = "ctrl+c") :
    m.Update (.key s) = some (m, some .quit) := by
  rcases h with h | h | h <;> subst h <;> rfl

/-- A key outside the recognized set leaves the action model unchanged. -/
theorem actionUpdate_ignored (m : actionChoice) (s : String)
    (hq : s ≠ "q") (he : s ≠ "esc") (hc : s ≠ "ctrl+c")
    (hu : s ≠ "up") (hd : s ≠ "down") (hent : s ≠ "enter") :
    m.Update (.key s) = some (m, none) := by
  simp only [actionChoice.Update]
  rw [if_neg (by tauto), if_neg hu, if_neg hd, if_neg hent]

/-! ### Claim theorems -/

/-- Claim C1: for every raw listing line with fewer than 3
whitespace-separated tokens, `convertStringToContainer` fails (the Go code
panics on an unchecked field access, embedded as `none`): the line is
rejected whole and no partially-populated `Container` is produced. The
spec names this failure condition `MalformedRecord`. -/
theorem short_line_rejected (str : String)
    (h : (goFields str).length < 3) :
    convertStringToContainer str = none := by
  unfold convertStringToContainer
  have h2 : goIndex (goFields str) 2 = none := by
    unfold goIndex
    rw [if_pos (by norm_num)]
    exact List.get?_eq_none.mpr (by omega)
  cases h0 : goIndex (goFields str) 0 with
  | none => simp [h0]
  | some id =>
    cases h1 : goIndex (goFields str) 1 with
    | none => simp [h0, h1]
    | some image => simp [h0, h1, h2]

/-- Closed witness for `short_line_rejected` at a two-token line. -/
theorem short_line_rejected_witness :
    (goFields "ab cd").length < 3 ∧ convertStringToContainer "ab cd" = none :=
  ⟨by decide, short_line_rejected "ab cd" (by decide)⟩

/-- Claim C2: on a model whose container list is empty, the commit event
(`enter`) fails — the Go code panics indexing `menu.containers[menu.cursor]`,
embedded as `none` — so no successor model exists and in particular no
selection value is ever recorded. The spec names this failure condition
`EmptySelection`. -/
theorem commit_on_empty_fails (m : containerChoice)
    (h : m.containers = []) :
    m.Update (.key "enter") = none := by
  have hidx : goIndex m.containers m.cursor = none := by
    unfold goIndex
    rw [h]
    split <;> simp
  rw [containerUpdate_enter, hidx]

/-- Closed witness for `commit_on_empty_fails` at the initial empty model. -/
theorem commit_on_empty_fails_witness :
    (initialContainerModel []).containers = [] ∧
      (initialContainerModel []).Update (.key "enter") = none :=
  ⟨rfl, commit_on_empty_fails (initialContainerModel []) rfl⟩

/-- Counterexample to claim C4: on the initial empty-list model (cursor
`-1`), the `down` event is not a no-op — it moves the cursor to `0`,
yielding a model different from the one before the event. -/
theorem empty_moveDown_changes_cursor :
    (initialContainerModel []).Update (.key "down") =
      some ({ initialContainerModel [] with cursor := 0 }, none) ∧
    ({ initialContainerModel [] with cursor := 0 } : containerChoice) ≠
      initialContainerModel [] := by
  refine ⟨by decide, by decide⟩

/-- Claim C4 as amended: on a model with an empty item list and a cursor in
the reachable range `[-1, 0]`, the `up` event sets the cursor to `-1` and
the `down` event sets it to `0`; items and selection are unchanged and no
quit command is emitted, but the events are not no-ops in general (from the
initial cursor `-1`, `down` changes the cursor to `0`). -/
theorem empty_moves_set_cursor (m : containerChoice)
    (he : m.containers = []) (hlo : -1 ≤ m.cursor) (hhi : m.cursor ≤ 0) :
    m.Update (.key "up") = some ({ m with cursor := -1 }, none) ∧
    m.Update (.key "down") = some ({ m with cursor := 0 }, none) := by
  constructor
  · rw [containerUpdate_up, if_pos (by omega), he]
    rfl
  · rw [containerUpdate_down, if_pos (by rw [he]; simp; omega)]

/-- Closed witness for `empty_moves_set_cursor` at the initial empty
model. -/
theorem empty_moves_set_cursor_witness :
    (initialContainerModel []).Update (.key "up") =
      some ({ initialContainerModel [] with cursor := -1 }, none) ∧
    (initialContainerModel []).Update (.key "down") =
      some ({ initialContainerModel [] with cursor := 0 }, none) :=
  empty_moves_set_cursor (initialContainerModel []) rfl (by decide) (by decide)

/-- Claim C7: for every item list, the freshly created container model has
its cursor at `len - 1` with no selection recorded (the empty string is the
not-yet-committed sentinel: the session is still active), and the action
model is created the same way over its fixed two-action list. -/
theorem initial_models_shape (containers : List String)
    (container : Container) :
    (initialContainerModel containers).containers = containers ∧
    (initialContainerModel containers).cursor =
      (containers.length : Int) - 1 ∧
    (initialContainerModel containers).selectedContainer = "" ∧
    (initialActionModel container).actions = ["Exit", "Copy container ID"] ∧
    (initialActionModel container).cursor =
      ((initialActionModel container).actions.length : Int) - 1 ∧
    (initialActionModel container).selectedAction = "" :=
  ⟨rfl, rfl, rfl, rfl, rfl, rfl⟩

/-- Counterexample to claim C8: when the clipboard subprocess fails,
`doAction` on the `Copy container ID` label does not return the wrapped
clipboard error to its caller — it terminates the process with exit code 1
instead. -/
theorem clipboard_error_not_returned :
    doAction (.failure "exec failed") "Copy container ID"
        ⟨"abc123", "nginx:latest", "cmd", "2 days ago", "Up 2 days", "", "web"⟩
      = .exit 1 ∧
    doAction (.failure "exec failed") "Copy container ID"
        ⟨"abc123", "nginx:latest", "cmd", "2 days ago", "Up 2 days", "", "web"⟩
      ≠ .ret (some ("error copying container ID: " ++ "exec failed")) := by
  refine ⟨by decide, by decide⟩

/-- Claim C8 as amended: when the clipboard collaborator fails,
`copyContainerId` wraps the failure in the clipboard error and returns it to
its immediate caller `doAction`; `doAction` does not propagate it further
but reports it and terminates the run with exit code 1, with no retry. -/
theorem clipboard_failure_fatal (msg : String) (container : Container) :
    copyContainerId (.failure msg) container.ID =
      some ("error copying container ID: " ++ msg) ∧
    doAction (.failure msg) "Copy container ID" container = .exit 1 :=
  ⟨rfl, rfl⟩

/-- Claim C3: whenever the parser succeeds (the line has at least 6 tokens,
otherwise the Go code panics), fields are assigned positionally: token 0 is
the identifier, token 1 the image, token 2 the command, tokens 3 through 5
joined by single spaces the creation timestamp, tokens 6 through 9 joined
by single spaces the status exactly when the token count exceeds 10 (empty
otherwise), the ports text is always empty, and the last token is the
name. -/
theorem parse_positional (str : String)
    (h6 : 6 ≤ (goFields str).length) :
    convertStringToContainer str = some
      { ID := (goFields str).getD 0 ""
        Image := (goFields str).getD 1 ""
        Command := (goFields str).getD 2 ""
        Created := String.intercalate " " (((goFields str).drop 3).take 3)
        Status := if (goFields str).length > 10 then
            String.intercalate " " (((goFields str).drop 6).take 4)
          else ""
        Ports := ""
        Name := (goFields str).getD ((goFields str).length - 1) "" } := by
  have h0' : goIndex (goFields str) 0 = some ((goFields str).getD 0 "") := by
    simpa using goIndex_eq_some (goFields str) 0 "" (by norm_num) (by omega)
  have h1' : goIndex (goFields str) 1 = some ((goFields str).getD 1 "") := by
    simpa using goIndex_eq_some (goFields str) 1 "" (by norm_num) (by omega)
  have h2' : goIndex (goFields str) 2 = some ((goFields str).getD 2 "") := by
    simpa using goIndex_eq_some (goFields str) 2 "" (by norm_num) (by omega)
  have hsl : goSlice (goFields str) 3 6 =
      some (((goFields str).drop 3).take 3) := by
    unfold goSlice
    rw [if_pos ⟨by norm_num, by omega⟩]
  have htn : ((((goFields str).length : Int) - 1)).toNat =
      (goFields str).length - 1 := by omega
  have hname : goIndex (goFields str) (((goFields str).length : Int) - 1) =
      some ((goFields str).getD ((goFields str).length - 1) "") := by
    rw [goIndex_eq_some (goFields str) (((goFields str).length : Int) - 1) ""
      (by omega) (by omega), htn]
  by_cases h10 : (goFields str).length > 10
  · have hst : goSlice (goFields str) 6 10 =
        some (((goFields str).drop 6).take 4) := by
      unfold goSlice
      rw [if_pos ⟨by norm_num, by omega⟩]
    simp [convertStringToContainer, h0', h1', h2', hsl, hname, hst, h10]
  · simp [convertStringToContainer, h0', h1', h2', hsl, hname, h10]

/-- Closed witness for `parse_positional` at a six-token line. -/
theorem parse_positional_witness :
    convertStringToContainer "a b c d e f" =
      some ⟨"a", "b", "c", "d e f", "", "", "f"⟩ :=
  parse_positional "a b c d e f" (by decide)

/-- Claim C6: on a model with a non-empty container list and an in-range
cursor, the commit event succeeds, quits, and records exactly the item at
the current cursor position as the selection. -/
theorem commit_selects_cursor_item (m : containerChoice)
    (h0 : 0 ≤ m.cursor) (h1 : m.cursor < (m.containers.length : Int)) :
    m.Update (.key "enter") =
      some ({ m with selectedContainer := m.containers.getD m.cursor.toNat "" },
        some .quit) := by
  have ht : m.cursor.toNat < m.containers.length := by omega
  rw [containerUpdate_enter, goIndex_eq_some m.containers m.cursor "" h0 ht]

/-- Closed witness for `commit_selects_cursor_item`: committing with the
cursor on the second item selects that item. -/
theorem commit_selects_cursor_item_witness :
    containerChoice.Update ⟨["a", "b"], 1, ""⟩ (.key "enter") =
      some (⟨["a", "b"], 1, "b"⟩, some .quit) :=
  commit_selects_cursor_item ⟨["a", "b"], 1, ""⟩ (by decide) (by decide)

/-- Claim C9: on a model with a non-empty container list and an in-range
cursor, every event (cancel keys, moves, commit, ignored keys, non-key
messages) produces a successor model over the same item list whose cursor
is again in range. -/
theorem cursor_stays_in_range (m : containerChoice) (msg : Msg)
    (hne : m.containers ≠ []) (h0 : 0 ≤ m.cursor)
    (h1 : m.cursor < (m.containers.length : Int)) :
    ∃ m' cmd, m.Update msg = some (m', cmd) ∧
      m'.containers = m.containers ∧ 0 ≤ m'.cursor ∧
      m'.cursor < (m'.containers.length : Int) := by
  have hlen : 0 < m.containers.length := List.length_pos.mpr hne
  cases msg with
  | other => exact ⟨m, none, rfl, rfl, h0, h1⟩
  | key s =>
    by_cases hcan : s = "q" ∨ s = "esc" ∨ s = "ctrl+c"
    · exact ⟨m, some .quit, containerUpdate_cancel m s hcan, rfl, h0, h1⟩
    · push_neg at hcan
      obtain ⟨hq, he, hc⟩ := hcan
      by_cases hu : s = "up"
      · subst hu
        refine ⟨_, none, containerUpdate_up m, rfl, ?_, ?_⟩ <;>
          dsimp only <;> split <;> omega
      · by_cases hd : s = "down"
        · subst hd
          refine ⟨_, none, containerUpdate_down m, rfl, ?_, ?_⟩ <;>
            dsimp only <;> split <;> omega
        · by_cases hent : s = "enter"
          · subst hent
            have ht : m.cursor.toNat < m.containers.length := by omega
            refine ⟨{ m with selectedContainer :=
                m.containers.getD m.cursor.toNat "" }, some .quit,
              commit_selects_cursor_item m h0 h1, rfl, h0, h1⟩
          · exact ⟨m, none,
              containerUpdate_ignored m s hq he hc hu hd hent, rfl, h0, h1⟩

/-- Closed witness for `cursor_stays_in_range` at a one-item model and an
ignored key. -/
theorem cursor_stays_in_range_witness :
    ∃ m' cmd,
      containerChoice.Update ⟨["x"], 0, ""⟩ (.key "a") = some (m', cmd) ∧
      m'.containers = (⟨["x"], 0, ""⟩ : containerChoice).containers ∧
      0 ≤ m'.cursor ∧ m'.cursor < (m'.containers.length : Int) :=
  cursor_stays_in_range ⟨["x"], 0, ""⟩ (.key "a") (by decide) (by decide)
    (by decide)

/-- With an in-range cursor, the `down` step is exactly a modular
increment. -/
theorem containerDown_mod (m : containerChoice) (h0 : 0 ≤ m.cursor)
    (h1 : m.cursor < (m.containers.length : Int)) :
    m.Update (.key "down") =
      some ({ m with cursor :=
        (m.cursor + 1) % (m.containers.length : Int) }, none) := by
  have key : (if m.cursor + 1 ≥ (m.containers.length : Int) then 0
      else m.cursor + 1) = (m.cursor + 1) % (m.containers.length : Int) := by
    split
    · rw [show m.cursor + 1 = (m.containers.length : Int) by omega,
        Int.emod_self]
    · rw [Int.emod_eq_of_lt (by omega) (by omega)]
  rw [containerUpdate_down, key]

/-- With an in-range cursor, the `up` step is exactly a modular
decrement. -/
theorem containerUp_mod (m : containerChoice) (h0 : 0 ≤ m.cursor)
    (h1 : m.cursor < (m.containers.length : Int)) :
    m.Update (.key "up") =
      some ({ m with cursor :=
        (m.cursor - 1) % (m.containers.length : Int) }, none) := by
  have key : (if m.cursor - 1 < 0 then (m.containers.length : Int) - 1
      else m.cursor - 1) = (m.cursor - 1) % (m.containers.length : Int) := by
    split
    · have hc0 : m.cursor = 0 := by omega
      rw [hc0]
      have h := Int.add_mul_emod_self_left
        ((m.containers.length : Int) - 1) (m.containers.length : Int) (-1)
      rw [show ((m.containers.length : Int) - 1) +
          (m.containers.length : Int) * (-1) = (0 : Int) - 1 by ring] at h
      rw [h, Int.emod_eq_of_lt (by omega) (by omega)]
    · rw [Int.emod_eq_of_lt (by omega) (by omega)]
  rw [containerUpdate_up, key]

/-- Iterating `down` from an in-range cursor adds the step count
modulo the list length. -/
theorem iterContainer_down_mod (n : Nat) :
    ∀ m : containerChoice, 0 ≤ m.cursor →
      m.cursor < (m.containers.length : Int) →
      iterContainerUpdate m (.key "down") n =
        some { m with cursor :=
          (m.cursor + n) % (m.containers.length : Int) } := by
  induction n with
  | zero =>
    intro m h0 h1
    show some m = _
    rw [show (m.cursor + ((0 : Nat) : Int)) %
        (m.containers.length : Int) = m.cursor by
      push_cast
      rw [add_zero, Int.emod_eq_of_lt h0 h1]]
  | succ n ih =>
    intro m h0 h1
    have hL : (0 : Int) < (m.containers.length : Int) := by omega
    have unfolded : iterContainerUpdate m (.key "down") (n + 1) =
        iterContainerUpdate { m with cursor :=
          (m.cursor + 1) % (m.containers.length : Int) } (.key "down") n := by
      simp only [iterContainerUpdate, containerDown_mod m h0 h1]
    rw [unfolded, ih _ (Int.emod_nonneg _ (by omega))
      (Int.emod_lt_of_pos _ hL)]
    have harith : ((m.cursor + 1) % (m.containers.length : Int) + (n : Int)) %
        (m.containers.length : Int) =
        (m.cursor + ((n + 1 : Nat) : Int)) % (m.containers.length : Int) := by
      rw [Int.emod_add_emod]
      push_cast
      ring_nf
    simp only [harith]

/-- Iterating `up` from an in-range cursor subtracts the step count
modulo the list length. -/
theorem iterContainer_up_mod (n : Nat) :
    ∀ m : containerChoice, 0 ≤ m.cursor →
      m.cursor < (m.containers.length : Int) →
      iterContainerUpdate m (.key "up") n =
        some { m with cursor :=
          (m.cursor - n) % (m.containers.length : Int) } := by
  induction n with
  | zero =>
    intro m h0 h1
    show some m = _
    rw [show (m.cursor - ((0 : Nat) : Int)) %
        (m.containers.length : Int) = m.cursor by
      push_cast
      rw [sub_zero, Int.emod_eq_of_lt h0 h1]]
  | succ n ih =>
    intro m h0 h1
    have hL : (0 : Int) < (m.containers.length : Int) := by omega
    have unfolded : iterContainerUpdate m (.key "up") (n + 1) =
        iterContainerUpdate { m with cursor :=
          (m.cursor - 1) % (m.containers.length : Int) } (.key "up") n := by
      simp only [iterContainerUpdate, containerUp_mod m h0 h1]
    rw [unfolded, ih _ (Int.emod_nonneg _ (by omega))
      (Int.emod_lt_of_pos _ hL)]
    have harith : ((m.cursor - 1) % (m.containers.length : Int) - (n : Int)) %
        (m.containers.length : Int) =
        (m.cursor - ((n + 1 : Nat) : Int)) % (m.containers.length : Int) := by
      rw [emod_sub_emod_left]
      push_cast
      ring_nf
    simp only [harith]

/-- With an in-range cursor, the action-model `down` step is a modular
increment. -/
theorem actionDown_mod (m : actionChoice) (h0 : 0 ≤ m.cursor)
    (h1 : m.cursor < (m.actions.length : Int)) :
    m.Update (.key "down") =
      some ({ m with cursor :=
        (m.cursor + 1) % (m.actions.length : Int) }, none) := by
  have key : (if m.cursor + 1 ≥ (m.actions.length : Int) then 0
      else m.cursor + 1) = (m.cursor + 1) % (m.actions.length : Int) := by
    split
    · rw [show m.cursor + 1 = (m.actions.length : Int) by omega, Int.emod_self]
    · rw [Int.emod_eq_of_lt (by omega) (by omega)]
  rw [actionUpdate_down, key]

/-- With an in-range cursor, the action-model `up` step is a modular
decrement. -/
theorem actionUp_mod (m : actionChoice) (h0 : 0 ≤ m.cursor)
    (h1 : m.cursor < (m.actions.length : Int)) :
    m.Update (.key "up") =
      some ({ m with cursor :=
        (m.cursor - 1) % (m.actions.length : Int) }, none) := by
  have key : (if m.cursor - 1 < 0 then (m.actions.length : Int) - 1
      else m.cursor - 1) = (m.cursor - 1) % (m.actions.length : Int) := by
    split
    · have hc0 : m.cursor = 0 := by omega
      rw [hc0]
      have h := Int.add_mul_emod_self_left
        ((m.actions.length : Int) - 1) (m.actions.length : Int) (-1)
      rw [show ((m.actions.length : Int) - 1) +
          (m.actions.length : Int) * (-1) = (0 : Int) - 1 by ring] at h
      rw [h, Int.emod_eq_of_lt (by omega) (by omega)]
    · rw [Int.emod_eq_of_lt (by omega) (by omega)]
  rw [actionUpdate_up, key]

/-- Iterating `down` on the action model adds the step count modulo the
list length. -/
theorem iterAction_down_mod (n : Nat) :
    ∀ m : actionChoice, 0 ≤ m.cursor →
      m.cursor < (m.actions.length : Int) →
      iterActionUpdate m (.key "down") n =
        some { m with cursor :=
          (m.cursor + n) % (m.actions.length : Int) } := by
  induction n with
  | zero =>
    intro m h0 h1
    show some m = _
    rw [show (m.cursor + ((0 : Nat) : Int)) % (m.actions.length : Int) =
        m.cursor by
      push_cast
      rw [add_zero, Int.emod_eq_of_lt h0 h1]]
  | succ n ih =>
    intro m h0 h1
    have hL : (0 : Int) < (m.actions.length : Int) := by omega
    have unfolded : iterActionUpdate m (.key "down") (n + 1) =
        iterActionUpdate { m with cursor :=
          (m.cursor + 1) % (m.actions.length : Int) } (.key "down") n := by
      simp only [iterActionUpdate, actionDown_mod m h0 h1]
    rw [unfolded, ih _ (Int.emod_nonneg _ (by omega))
      (Int.emod_lt_of_pos _ hL)]
    have harith : ((m.cursor + 1) % (m.actions.length : Int) + (n : Int)) %
        (m.actions.length : Int) =
        (m.cursor + ((n + 1 : Nat) : Int)) % (m.actions.length : Int) := by
      rw [Int.emod_add_emod]
      push_cast
      ring_nf
    simp only [harith]

/-- Iterating `up` on the action model subtracts the step count modulo the
list length. -/
theorem iterAction_up_mod (n : Nat) :
    ∀ m : actionChoice, 0 ≤ m.cursor →
      m.cursor < (m.actions.length : Int) →
      iterActionUpdate m (.key "up") n =
        some { m with cursor :=
          (m.cursor - n) % (m.actions.length : Int) } := by
  induction n with
  | zero =>
    intro m h0 h1
    show some m = _
    rw [show (m.cursor - ((0 : Nat) : Int)) % (m.actions.length : Int) =
        m.cursor by
      push_cast
      rw [sub_zero, Int.emod_eq_of_lt h0 h1]]
  | succ n ih =>
    intro m h0 h1
    have hL : (0 : Int) < (m.actions.length : Int) := by omega
    have unfolded : iterActionUpdate m (.key "up") (n + 1) =
        iterActionUpdate { m with cursor :=
          (m.cursor - 1) % (m.actions.length : Int) } (.key "up") n := by
      simp only [iterActionUpdate, actionUp_mod m h0 h1]
    rw [unfolded, ih _ (Int.emod_nonneg _ (by omega))
      (Int.emod_lt_of_pos _ hL)]
    have harith : ((m.cursor - 1) % (m.actions.length : Int) - (n : Int)) %
        (m.actions.length : Int) =
        (m.cursor - ((n + 1 : Nat) : Int)) % (m.actions.length : Int) := by
      rw [emod_sub_emod_left]
      push_cast
      ring_nf
    simp only [harith]

/-- Claim C5: from any in-range cursor over a non-empty list, applying
`down` exactly `len(items)` times returns the model to its starting state,
and the same holds for `up` — for both the container-selection and the
action-selection models; in particular one `down` from the last index of a
3-item list wraps the cursor to index 0. -/
theorem move_wraps (m : containerChoice) (a : actionChoice)
    (h0 : 0 ≤ m.cursor) (h1 : m.cursor < (m.containers.length : Int))
    (ha0 : 0 ≤ a.cursor) (ha1 : a.cursor < (a.actions.length : Int)) :
    iterContainerUpdate m (.key "down") m.containers.length = some m ∧
    iterContainerUpdate m (.key "up") m.containers.length = some m ∧
    iterActionUpdate a (.key "down") a.actions.length = some a ∧
    iterActionUpdate a (.key "up") a.actions.length = some a ∧
    (m.containers.length = 3 → m.cursor = 2 →
      m.Update (.key "down") = some ({ m with cursor := 0 }, none)) := by
  refine ⟨?_, ?_, ?_, ?_, ?_⟩
  · rw [iterContainer_down_mod m.containers.length m h0 h1,
      show (m.cursor + (m.containers.length : Int)) %
        (m.containers.length : Int) = m.cursor by
      rw [add_len_emod, Int.emod_eq_of_lt h0 h1]]
  · rw [iterContainer_up_mod m.containers.length m h0 h1,
      show (m.cursor - (m.containers.length : Int)) %
        (m.containers.length : Int) = m.cursor by
      rw [sub_len_emod, Int.emod_eq_of_lt h0 h1]]
  · rw [iterAction_down_mod a.actions.length a ha0 ha1,
      show (a.cursor + (a.actions.length : Int)) % (a.actions.length : Int) =
        a.cursor by
      rw [add_len_emod, Int.emod_eq_of_lt ha0 ha1]]
  · rw [iterAction_up_mod a.actions.length a ha0 ha1,
      show (a.cursor - (a.actions.length : Int)) % (a.actions.length : Int) =
        a.cursor by
      rw [sub_len_emod, Int.emod_eq_of_lt ha0 ha1]]
  · intro h3 hc2
    rw [containerUpdate_down, if_pos (by omega)]

/-- Closed witness for `move_wraps`: a 3-item container model with the
cursor on the last item and the initial action model. -/
theorem move_wraps_witness :
    iterContainerUpdate ⟨["a", "b", "c"], 2, ""⟩ (.key "down") 3 =
      some ⟨["a", "b", "c"], 2, ""⟩ ∧
    iterContainerUpdate ⟨["a", "b", "c"], 2, ""⟩ (.key "up") 3 =
      some ⟨["a", "b", "c"], 2, ""⟩ ∧
    iterActionUpdate
        (initialActionModel ⟨"i", "im", "c", "cr", "s", "p", "n"⟩)
        (.key "down") 2 =
      some (initialActionModel ⟨"i", "im", "c", "cr", "s", "p", "n"⟩) ∧
    iterActionUpdate
        (initialActionModel ⟨"i", "im", "c", "cr", "s", "p", "n"⟩)
        (.key "up") 2 =
      some (initialActionModel ⟨"i", "im", "c", "cr", "s", "p", "n"⟩) ∧
    ((3 : Nat) = 3 → (2 : Int) = 2 →
      containerChoice.Update ⟨["a", "b", "c"], 2, ""⟩ (.key "down") =
        some (⟨["a", "b", "c"], 0, ""⟩, none)) :=
  move_wraps ⟨["a", "b", "c"], 2, ""⟩
    (initialActionModel ⟨"i", "im", "c", "cr", "s", "p", "n"⟩)
    (by decide) (by decide) (by decide) (by decide)

/-- An event that does not end the session only ever changes the cursor of
the container model and emits no command. -/
theorem containerUpdate_nonend (m : containerChoice) (e : Msg)
    (h : endsSession e = false) :
    ∃ c : Int, m.Update e = some ({ m with cursor := c }, none) := by
  cases e with
  | other => exact ⟨m.cursor, rfl⟩
  | key s =>
    simp only [endsSession, Bool.or_eq_false_iff,
      decide_eq_false_iff_not] at h
    obtain ⟨⟨⟨hq, he⟩, hc⟩, hent⟩ := h
    by_cases hu : s = "up"
    · subst hu
      exact ⟨_, containerUpdate_up m⟩
    · by_cases hd : s = "down"
      · subst hd
        exact ⟨_, containerUpdate_down m⟩
      · exact ⟨m.cursor, containerUpdate_ignored m s hq he hc hu hd hent⟩

/-- An event that does not end the session only ever changes the cursor of
the action model and emits no command. -/
theorem actionUpdate_nonend (m : actionChoice) (e : Msg)
    (h : endsSession e = false) :
    ∃ c : Int, m.Update e = some ({ m with cursor := c }, none) := by
  cases e with
  | other => exact ⟨m.cursor, rfl⟩
  | key s =>
    simp only [endsSession, Bool.or_eq_false_iff,
      decide_eq_false_iff_not] at h
    obtain ⟨⟨⟨hq, he⟩, hc⟩, hent⟩ := h
    by_cases hu : s = "up"
    · subst hu
      exact ⟨_, actionUpdate_up m⟩
    · by_cases hd : s = "down"
      · subst hd
        exact ⟨_, actionUpdate_down m⟩
      · exact ⟨m.cursor, actionUpdate_ignored m s hq he hc hu hd hent⟩

/-- Running the container session on non-ending events followed by a cancel
key finishes with only the cursor possibly changed. -/
theorem runContainer_cancel_run (s : String)
    (hs : s = "q" ∨ s = "esc" ∨ s = "ctrl+c") :
    ∀ es : List Msg, (∀ e ∈ es, endsSession e = false) →
      ∀ m : containerChoice, ∃ c : Int,
        runContainer m (es ++ [.key s]) = .finished { m with cursor := c } := by
  intro es
  induction es with
  | nil =>
    intro _ m
    refine ⟨m.cursor, ?_⟩
    show runContainer m [.key s] = _
    simp only [runContainer, containerUpdate_cancel m s hs]
  | cons e es ih =>
    intro hes m
    obtain ⟨c, hc⟩ := containerUpdate_nonend m e (hes e (by simp))
    obtain ⟨c', hc'⟩ :=
      ih (fun e' he' => hes e' (by simp [he'])) { m with cursor := c }
    refine ⟨c', ?_⟩
    rw [List.cons_append]
    simp only [runContainer, hc]
    exact hc'

/-- Running the action session on non-ending events followed by a cancel
key finishes with only the cursor possibly changed. -/
theorem runAction_cancel_run (s : String)
    (hs : s = "q" ∨ s = "esc" ∨ s = "ctrl+c") :
    ∀ es : List Msg, (∀ e ∈ es, endsSession e = false) →
      ∀ m : actionChoice, ∃ c : Int,
        runAction m (es ++ [.key s]) = .finished { m with cursor := c } := by
  intro es
  induction es with
  | nil =>
    intro _ m
    refine ⟨m.cursor, ?_⟩
    show runAction m [.key s] = _
    simp only [runAction, actionUpdate_cancel m s hs]
  | cons e es ih =>
    intro hes m
    obtain ⟨c, hc⟩ := actionUpdate_nonend m e (hes e (by simp))
    obtain ⟨c', hc'⟩ :=
      ih (fun e' he' => hes e' (by simp [he'])) { m with cursor := c }
    refine ⟨c', ?_⟩
    rw [List.cons_append]
    simp only [runAction, hc]
    exact hc'

/-- Claim C10: a session whose event stream ends with a cancel key (`q`,
`esc` or `ctrl+c`) before any commit or earlier session-ending event makes
`chooseContainer` and `chooseAction` return the empty string together with
a `nil` error — indistinguishable from an error-free run whose selected
value is the empty string. -/
theorem cancel_yields_empty_and_nil (containers : List String)
    (container : Container) (es : List Msg) (s : String)
    (hs : s = "q" ∨ s = "esc" ∨ s = "ctrl+c")
    (hes : ∀ e ∈ es, endsSession e = false) :
    chooseContainer containers (es ++ [.key s]) =
      some { value := "", errMsg := none } ∧
    chooseAction container (es ++ [.key s]) =
      some { value := "", errMsg := none } := by
  constructor
  · obtain ⟨c, hc⟩ :=
      runContainer_cancel_run s hs es hes (initialContainerModel containers)
    simp only [chooseContainer, hc]
    rfl
  · obtain ⟨c, hc⟩ :=
      runAction_cancel_run s hs es hes (initialActionModel container)
    simp only [chooseAction, hc]
    rfl

/-- Closed witness for `cancel_yields_empty_and_nil`: two navigation events
then `esc`. -/
theorem cancel_yields_empty_and_nil_witness :
    chooseContainer ["a", "b"] ([.key "down", .other] ++ [.key "esc"]) =
      some { value := "", errMsg := none } ∧
    chooseAction ⟨"i", "im", "c", "cr", "s", "p", "n"⟩
        ([.key "down", .other] ++ [.key "esc"]) =
      some { value := "", errMsg := none } :=
  cancel_yields_empty_and_nil ["a", "b"] ⟨"i", "im", "c", "cr", "s", "p", "n"⟩
    [.key "down", .other] "esc" (by decide) (by decide)
